import Mathlib

/-!
Verification of the scene-composition editor core: geometry and pose
primitives, the scene object registry, the selection and transform
interaction state machine, the randomized placement engine, and the
command-based undo/redo history.

Scalars are modelled as exact rationals.  Renderable geometry is
modelled by each asset's local axis-aligned bounding box (half extents,
centered at the asset origin), which is all the code observes of it
(via THREE.Box3.setFromObject).  Randomness (Math.random and the random
Y-axis rotation) is modelled as an input stream of per-attempt sampled
values; the random rotation about the vertical axis is supplied as the
(sin, cos) pair of the half angle, i.e. exactly the two components of
the quaternion the code builds with setFromAxisAngle.  The Euler-degrees
to quaternion conversion performed by THREE when code assigns
object.rotation is transcendental; it is kept as an explicit function
parameter e2q wherever it is used, and theorems quantify over it.
-/

attribute [local semireducible] Rat.add Rat.mul Rat.sub Rat.inv Rat.ofScientific

/-- A 3-component vector of rationals (models THREE.Vector3). -/
structure Vec3 where
  x : ℚ
  y : ℚ
  z : ℚ
deriving DecidableEq, Repr

/-- A quaternion (models THREE.Quaternion, components x y z w). -/
structure Quat where
  x : ℚ
  y : ℚ
  z : ℚ
  w : ℚ
deriving DecidableEq, Repr

/-- The identity quaternion (0,0,0,1). -/
def quatIdentity : Quat := ⟨0, 0, 0, 1⟩

/-- Hamilton product, exactly THREE.Quaternion.multiplyQuaternions a b. -/
def Quat.mul (a b : Quat) : Quat :=
  ⟨a.x * b.w + a.w * b.x + a.y * b.z - a.z * b.y,
   a.y * b.w + a.w * b.y + a.z * b.x - a.x * b.z,
   a.z * b.w + a.w * b.z + a.x * b.y - a.y * b.x,
   a.w * b.w - a.x * b.x - a.y * b.y - a.z * b.z⟩

/-- An axis-aligned box (models THREE.Box3). -/
structure Box3 where
  min : Vec3
  max : Vec3
deriving DecidableEq, Repr

/-- Half extents of the axis-aligned bounding box of a box with half
extents h after rotating it by unit quaternion q: componentwise absolute
value of the rotation matrix (THREE.Matrix4.makeRotationFromQuaternion)
applied to h. -/
def rotatedHalf (q : Quat) (h : Vec3) : Vec3 :=
  let m11 := 1 - 2 * (q.y * q.y + q.z * q.z)
  let m12 := 2 * (q.x * q.y - q.w * q.z)
  let m13 := 2 * (q.x * q.z + q.w * q.y)
  let m21 := 2 * (q.x * q.y + q.w * q.z)
  let m22 := 1 - 2 * (q.x * q.x + q.z * q.z)
  let m23 := 2 * (q.y * q.z - q.w * q.x)
  let m31 := 2 * (q.x * q.z - q.w * q.y)
  let m32 := 2 * (q.y * q.z + q.w * q.x)
  let m33 := 1 - 2 * (q.x * q.x + q.y * q.y)
  ⟨|m11| * h.x + |m12| * h.y + |m13| * h.z,
   |m21| * h.x + |m22| * h.y + |m23| * h.z,
   |m31| * h.x + |m32| * h.y + |m33| * h.z⟩

/-- A placed asset (models LoadedAsset together with the transform of its
root THREE.Object3D).  geomHalf is the half-extent vector of the local
bounding box of its renderable sub-hierarchy, meshes the identifiers of
its pickable mesh children. -/
structure Asset where
  id : String
  name : String
  locked : Bool
  excludeFromExport : Bool
  disableGravity : Bool
  position : Vec3
  quaternion : Quat
  scale : Vec3
  geomHalf : Vec3
  meshes : List ℕ
deriving DecidableEq, Repr

/-- Local half extents with the object's (non-uniform) scale applied. -/
def scaledHalf (a : Asset) : Vec3 :=
  ⟨|a.scale.x| * a.geomHalf.x, |a.scale.y| * a.geomHalf.y, |a.scale.z| * a.geomHalf.z⟩

/-- World bounding box of an asset at its current pose
(THREE.Box3.setFromObject): the rotated scaled local box, translated to
the asset's position. -/
def assetWorldBox (a : Asset) : Box3 :=
  let h := rotatedHalf a.quaternion (scaledHalf a)
  ⟨⟨a.position.x - h.x, a.position.y - h.y, a.position.z - h.z⟩,
   ⟨a.position.x + h.x, a.position.y + h.y, a.position.z + h.z⟩⟩

/-- getAssetLocalSize: the size of the asset's bounding box measured at
the origin with the given rotation applied (identity when none), as the
code does by transiently resetting the transform and measuring. -/
def getAssetLocalSize (a : Asset) (useRotation : Option Quat) : Vec3 :=
  let q := match useRotation with
    | some r => r
    | none => quatIdentity
  let h := rotatedHalf q (scaledHalf a)
  ⟨2 * h.x, 2 * h.y, 2 * h.z⟩

/-- checkCollision box1 box2 = box1.intersectsBox(box2) in THREE. -/
def checkCollision (box1 box2 : Box3) : Bool :=
  if box2.max.x < box1.min.x ∨ box2.min.x > box1.max.x ∨
     box2.max.y < box1.min.y ∨ box2.min.y > box1.max.y ∨
     box2.max.z < box1.min.z ∨ box2.min.z > box1.max.z then false else true

/-- The spawn rectangle in the Z-up placement plane. -/
structure SpawnBounds where
  minX : ℚ
  maxX : ℚ
  minY : ℚ
  maxY : ℚ
deriving DecidableEq, Repr

/-- isBoxWithinSpawnBounds: X and (Three.js) Z containment only, with the
Z-up Y axis mapped to the negated Three.js Z axis. -/
def isBoxWithinSpawnBounds (b : SpawnBounds) (box : Box3) : Bool :=
  let minX := b.minX
  let maxX := b.maxX
  let minZ := -b.maxY
  let maxZ := -b.minY
  decide (box.min.x ≥ minX ∧ box.max.x ≤ maxX ∧ box.min.z ≥ minZ ∧ box.max.z ≤ maxZ)

/-- A captured (position, orientation) snapshot of one asset. -/
structure SavedPose where
  position : Vec3
  quaternion : Quat
deriving DecidableEq, Repr

/-- A saved condition: a map from asset id to pose, modelled as an
association list (asset ids are unique in a registry). -/
structure SavedCondition where
  poses : List (String × SavedPose)
deriving DecidableEq, Repr

/-- Map.get on an association list of poses (first matching key). -/
def lookupPose (id : String) : List (String × SavedPose) → Option SavedPose
  | [] => none
  | p :: rest => if p.1 = id then some p.2 else lookupPose id rest

/-- Dynamic (placement-eligible) assets: not export-excluded, gravity
enabled, not locked — the filter used throughout useScene. -/
def isDynamic (a : Asset) : Bool :=
  !a.excludeFromExport && !a.disableGravity && !a.locked

/-- The dynamic sublist of a registry, in registry order. -/
def dynamicFilter (assets : List Asset) : List Asset :=
  assets.filter isDynamic

/-- capturePoses: the current poses of all dynamic assets, keyed by id. -/
def capturePoses (assets : List Asset) : List (String × SavedPose) :=
  (dynamicFilter assets).map (fun a => (a.id, ⟨a.position, a.quaternion⟩))

/-- applyPoses: write each listed pose onto the asset with that id
(position and quaternion only), leaving all other assets alone. -/
def applyPoses (poses : List (String × SavedPose)) (assets : List Asset) : List Asset :=
  assets.map (fun a =>
    match lookupPose a.id poses with
    | some p => { a with position := p.position, quaternion := p.quaternion }
    | none => a)

/-- A before/after transform snapshot as the UI produces it: position,
rotation in Euler degrees, scale. -/
structure TransformSnapshot where
  position : Vec3
  rotationDeg : Vec3
  scale : Vec3
deriving DecidableEq, Repr

/-- applyTransform: set position, rotation (via the Euler-degrees to
quaternion conversion e2q performed by THREE), and scale of the asset
with the given id. -/
def applyTransform (e2q : Vec3 → Quat) (id : String) (t : TransformSnapshot)
    (assets : List Asset) : List Asset :=
  assets.map (fun a =>
    if a.id = id then
      { a with position := t.position, quaternion := e2q t.rotationDeg, scale := t.scale }
    else a)

/-- doToggleAssetGravity: flip the disableGravity flag of the asset with
the given id, leaving every other field and asset untouched. -/
def doToggleAssetGravity (id : String) (assets : List Asset) : List Asset :=
  assets.map (fun a =>
    if a.id = id then { a with disableGravity := !a.disableGravity } else a)

/-- The mutable scene state observed through the provider: the asset
registry, the spawn rectangle, the instruction text, the transient
savedPoses marker set by randomization, and the saved conditions. -/
structure SceneState where
  assets : List Asset
  spawnBounds : SpawnBounds
  instruction : String
  savedPoses : Option (List (String × SavedPose))
  savedConditions : List SavedCondition
deriving DecidableEq, Repr

/-- The commands constructed by useScene, identified by their type tag,
carrying exactly the data their execute/undo closures capture. -/
inductive Cmd where
  | transformCmd (id : String) (before after : TransformSnapshot)
  | instructionCmd (before after : String)
  | spawnBoundsCmd (before after : SpawnBounds)
  | addAssetCmd (asset : Asset)
  | removeAssetCmd (id : String) (asset : Asset)
  | toggleGravityCmd (id : String)
  | randomizeCmd (beforePoses afterPoses : List (String × SavedPose))
  | saveConditionCmd (condition : SavedCondition)
  | acceptRandomizationCmd (condition : SavedCondition)
  | clearConditionsCmd (previous : List SavedCondition)
  | deleteConditionCmd (newConds previous : List SavedCondition)
  | loadConditionCmd (beforePoses afterPoses : List (String × SavedPose))
deriving DecidableEq, Repr

/-- The execute action of each command. -/
def Cmd.exec (e2q : Vec3 → Quat) : Cmd → SceneState → SceneState
  | .transformCmd id _ after, st => { st with assets := applyTransform e2q id after st.assets }
  | .instructionCmd _ after, st => { st with instruction := after }
  | .spawnBoundsCmd _ after, st => { st with spawnBounds := after }
  | .addAssetCmd a, st => { st with assets := st.assets ++ [a] }
  | .removeAssetCmd id _, st =>
      { st with assets := st.assets.filter (fun a => decide (a.id ≠ id)) }
  | .toggleGravityCmd id, st => { st with assets := doToggleAssetGravity id st.assets }
  | .randomizeCmd _ afterPoses, st => { st with assets := applyPoses afterPoses st.assets }
  | .saveConditionCmd c, st => { st with savedConditions := st.savedConditions ++ [c] }
  | .acceptRandomizationCmd c, st => { st with savedConditions := st.savedConditions ++ [c] }
  | .clearConditionsCmd _, st => { st with savedConditions := [] }
  | .deleteConditionCmd newConds _, st => { st with savedConditions := newConds }
  | .loadConditionCmd _ afterPoses, st => { st with assets := applyPoses afterPoses st.assets }

/-- The undo action of each command. -/
def Cmd.und (e2q : Vec3 → Quat) : Cmd → SceneState → SceneState
  | .transformCmd id before _, st => { st with assets := applyTransform e2q id before st.assets }
  | .instructionCmd before _, st => { st with instruction := before }
  | .spawnBoundsCmd before _, st => { st with spawnBounds := before }
  | .addAssetCmd a, st =>
      { st with assets := st.assets.filter (fun x => decide (x.id ≠ a.id)) }
  | .removeAssetCmd _ a, st => { st with assets := st.assets ++ [a] }
  | .toggleGravityCmd id, st => { st with assets := doToggleAssetGravity id st.assets }
  | .randomizeCmd beforePoses _, st => { st with assets := applyPoses beforePoses st.assets }
  | .saveConditionCmd _, st => { st with savedConditions := st.savedConditions.dropLast }
  | .acceptRandomizationCmd _, st => { st with savedConditions := st.savedConditions.dropLast }
  | .clearConditionsCmd previous, st => { st with savedConditions := previous }
  | .deleteConditionCmd _ previous, st => { st with savedConditions := previous }
  | .loadConditionCmd beforePoses _, st => { st with assets := applyPoses beforePoses st.assets }

/-- The history capacity from useHistory. -/
def MAX_HISTORY_SIZE : ℕ := 50

/-- The two history stacks (top of each stack is the list's last entry,
matching the array layout in useHistory). -/
structure History where
  undoStack : List Cmd
  redoStack : List Cmd
deriving DecidableEq, Repr

/-- pushCommand: append to the undo stack, trim the oldest entries when
the capacity is exceeded, clear the redo stack. -/
def pushCommand (h : History) (c : Cmd) : History :=
  let u := h.undoStack ++ [c]
  let u2 := if MAX_HISTORY_SIZE < u.length then u.drop (u.length - MAX_HISTORY_SIZE) else u
  { undoStack := u2, redoStack := [] }

/-- Scene state together with the history stacks. -/
structure AppState where
  scene : SceneState
  hist : History
deriving DecidableEq, Repr

/-- undo: no-op on an empty stack, otherwise pop the top command, run its
undo action, push it onto the redo stack. -/
def undoStep (e2q : Vec3 → Quat) (st : AppState) : AppState :=
  match st.hist.undoStack.getLast? with
  | none => st
  | some c =>
      { scene := c.und e2q st.scene,
        hist := { undoStack := st.hist.undoStack.dropLast,
                  redoStack := st.hist.redoStack ++ [c] } }

/-- redo: the mirror of undo using the execute action. -/
def redoStep (e2q : Vec3 → Quat) (st : AppState) : AppState :=
  match st.hist.redoStack.getLast? with
  | none => st
  | some c =>
      { scene := c.exec e2q st.scene,
        hist := { undoStack := st.hist.undoStack ++ [c],
                  redoStack := st.hist.redoStack.dropLast } }

/-- n repetitions of undo. -/
def undoStepN (e2q : Vec3 → Quat) : ℕ → AppState → AppState
  | 0, st => st
  | n + 1, st => undoStepN e2q n (undoStep e2q st)

/-- n repetitions of redo. -/
def redoStepN (e2q : Vec3 → Quat) : ℕ → AppState → AppState
  | 0, st => st
  | n + 1, st => redoStepN e2q n (redoStep e2q st)

/-- Run a sequence of commands the way every caller does: perform the
mutation (the command's execute action) and push the command. -/
def runCmds (e2q : Vec3 → Quat) : AppState → List Cmd → AppState
  | st, [] => st
  | st, c :: cs => runCmds e2q ⟨c.exec e2q st.scene, pushCommand st.hist c⟩ cs

/-- Sequential execution of a command list on a scene state. -/
def execList (e2q : Vec3 → Quat) : SceneState → List Cmd → SceneState
  | s, [] => s
  | s, c :: cs => execList e2q (c.exec e2q s) cs

/-- The Command construction invariant of the data model at one state:
undo(execute(S)) = S. -/
def invertsAtB (e2q : Vec3 → Quat) (s : SceneState) (c : Cmd) : Bool :=
  decide (c.und e2q (c.exec e2q s) = s)

/-- The construction invariant along a whole command sequence, each
command legally constructed at the state it was pushed from. -/
def invertsFromB (e2q : Vec3 → Quat) : SceneState → List Cmd → Bool
  | _, [] => true
  | s, c :: cs => invertsAtB e2q s c && invertsFromB e2q (c.exec e2q s) cs

/-- One attempt's worth of sampled randomness for the placement loop:
rx and ry are the two Math.random() draws for the candidate center
(each in [0,1)), and (ys, yc) are the sine and cosine of half the
random Y-axis angle — the y and w components of the quaternion the code
builds with setFromAxisAngle((0,1,0), rotY). -/
structure Attempt where
  rx : ℚ
  ry : ℚ
  ys : ℚ
  yc : ℚ
deriving DecidableEq, Repr

/-- An attempt's sampled values are in the range the code's sampling
produces: Math.random() in [0,1) and (ys,yc) on the unit circle. -/
def validAttempt (att : Attempt) : Prop :=
  0 ≤ att.rx ∧ att.rx < 1 ∧ 0 ≤ att.ry ∧ att.ry < 1 ∧ att.ys * att.ys + att.yc * att.yc = 1

/-- The maximum attempts per asset in doRandomizeNonStaticAssets. -/
def maxAttempts : ℕ := 100

/-- The candidate pose of one placement attempt: a center sampled inside
the shrunken valid bounds (or the rectangle midpoint when the asset
cannot fit), the preserved original height, and the random Y rotation
premultiplied onto the saved orientation. -/
def placeCandidate (b : SpawnBounds) (canFit : Bool)
    (validMinX validMaxX validMinY validMaxY originalHeight : ℚ)
    (savedPose : Option SavedPose) (att : Attempt) (a : Asset) : Asset :=
  let x := if canFit then validMinX + att.rx * (validMaxX - validMinX)
           else (b.minX + b.maxX) / 2
  let z := if canFit then -(validMinY + att.ry * (validMaxY - validMinY))
           else -((b.minY + b.maxY) / 2)
  let randomYRotation : Quat := ⟨0, att.ys, 0, att.yc⟩
  let newQuat := match savedPose with
    | some p => Quat.mul randomYRotation p.quaternion
    | none => randomYRotation
  { a with position := ⟨x, originalHeight, z⟩, quaternion := newQuat }

/-- The result of the per-asset attempt loop: the asset at its final
pose, whether a candidate was accepted, the updated placed-box list, and
the next randomness index. -/
structure PlaceOutcome where
  asset : Asset
  placed : Bool
  boxes : List Box3
  nextK : ℕ
deriving DecidableEq, Repr

/-- The attempt loop of doRandomizeNonStaticAssets for one asset:
up to the given fuel of attempts, accept a candidate that collides with
no already-placed box and lies within the spawn rectangle (or, when the
asset cannot fit, merely does not collide); each attempt overwrites the
asset's pose, so an exhausted loop keeps the last attempted pose and
records its box. -/
def tryPlace (b : SpawnBounds) (stream : ℕ → Attempt) (canFit : Bool)
    (validMinX validMaxX validMinY validMaxY originalHeight : ℚ)
    (savedPose : Option SavedPose) :
    ℕ → ℕ → Asset → List Box3 → PlaceOutcome
  | 0, k, a, boxes => ⟨a, false, boxes ++ [assetWorldBox a], k⟩
  | fuel + 1, k, a, boxes =>
    let cand := placeCandidate b canFit validMinX validMaxX validMinY validMaxY
      originalHeight savedPose (stream k) a
    let assetBox := assetWorldBox cand
    let hasCollision := boxes.any (fun placedBox => checkCollision assetBox placedBox)
    let withinBounds := isBoxWithinSpawnBounds b assetBox
    if (!hasCollision && withinBounds) || (!canFit && !hasCollision) then
      ⟨cand, true, boxes ++ [assetBox], k + 1⟩
    else
      tryPlace b stream canFit validMinX validMaxX validMinY validMaxY
        originalHeight savedPose fuel (k + 1) cand boxes

/-- The horizontal footprint radius used for shrinking the spawn
rectangle: half the larger of the X and Z sizes measured with the saved
orientation applied. -/
def maxHorizontalExtentFor (a : Asset) (savedPose : Option SavedPose) : ℚ :=
  let assetSize := getAssetLocalSize a (savedPose.map (fun p => p.quaternion))
  max assetSize.x assetSize.z / 2

/-- canFit: the spawn rectangle shrunk inward by the footprint radius is
non-degenerate on both planar axes. -/
def canFitFor (b : SpawnBounds) (a : Asset) (savedPose : Option SavedPose) : Bool :=
  let ext := maxHorizontalExtentFor a savedPose
  decide (b.minX + ext < b.maxX - ext ∧ b.minY + ext < b.maxY - ext)

/-- Place one dynamic asset: compute its footprint, the shrunken valid
center bounds, canFit, the preserved height, then run the attempt loop. -/
def placeAssetFull (b : SpawnBounds) (stream : ℕ → Attempt)
    (poses : List (String × SavedPose)) (k : ℕ) (a : Asset) (boxes : List Box3) :
    PlaceOutcome :=
  let savedPose := lookupPose a.id poses
  let ext := maxHorizontalExtentFor a savedPose
  let validMinX := b.minX + ext
  let validMaxX := b.maxX - ext
  let validMinY := b.minY + ext
  let validMaxY := b.maxY - ext
  let canFit := canFitFor b a savedPose
  let originalHeight := match savedPose with
    | some p => p.position.y
    | none => a.position.y
  tryPlace b stream canFit validMinX validMaxX validMinY validMaxY
    originalHeight savedPose maxAttempts k a boxes

/-- The main placement pass: process the registry in order, replacing
each dynamic asset by its placement outcome (threading the placed boxes
and the randomness index) and leaving every other asset untouched. -/
def placeAll (b : SpawnBounds) (stream : ℕ → Attempt)
    (poses : List (String × SavedPose)) :
    List Asset → List Box3 → ℕ → List Asset
  | [], _, _ => []
  | a :: rest, boxes, k =>
    if isDynamic a then
      let out := placeAssetFull b stream poses k a boxes
      out.asset :: placeAll b stream poses rest out.boxes out.nextK
    else
      a :: placeAll b stream poses rest boxes k

/-- doRandomizeNonStaticAssets: no-op when there is no dynamic asset;
otherwise capture the dynamic assets' poses into savedPoses and run the
placement pass over the registry. -/
def doRandomizeNonStaticAssets (stream : ℕ → Attempt) (st : SceneState) : SceneState :=
  let dynamicAssets := dynamicFilter st.assets
  if dynamicAssets.isEmpty then st
  else
    let poses := capturePoses st.assets
    { st with
        savedPoses := some poses,
        assets := placeAll st.spawnBounds stream poses st.assets [] 0 }

/-- randomizeNonStaticAssets: capture before-poses, bail out when no
dynamic asset exists, otherwise randomize, capture after-poses, and push
a randomize command holding both snapshots. -/
def randomizeNonStaticAssets (stream : ℕ → Attempt) (st : AppState) : AppState :=
  let beforePoses := capturePoses st.scene.assets
  if beforePoses.isEmpty then st
  else
    let scene2 := doRandomizeNonStaticAssets stream st.scene
    let afterPoses := capturePoses scene2.assets
    ⟨scene2, pushCommand st.hist (.randomizeCmd beforePoses afterPoses)⟩

/-- toggleAssetGravity: flip the flag and push the self-inverse toggle
command. -/
def toggleAssetGravity (id : String) (st : AppState) : AppState :=
  ⟨{ st.scene with assets := doToggleAssetGravity id st.scene.assets },
   pushCommand st.hist (.toggleGravityCmd id)⟩

/-- The index filter used by deleteCondition: keep every entry whose
position differs from the target index (JS filter over (element, idx)). -/
def filterOutIndex (target : ℤ) : List SavedCondition → ℤ → List SavedCondition
  | [], _ => []
  | c :: rest, idx =>
    if idx = target then filterOutIndex target rest (idx + 1)
    else c :: filterOutIndex target rest (idx + 1)

/-- deleteCondition: silent no-op on an out-of-range index, otherwise
remove the indexed entry and push a deleteCondition command. -/
def deleteCondition (i : ℤ) (st : AppState) : AppState :=
  let previousConditions := st.scene.savedConditions
  if i < 0 ∨ (previousConditions.length : ℤ) ≤ i then st
  else
    let newConditions := filterOutIndex i previousConditions 0
    ⟨{ st.scene with savedConditions := newConditions },
     pushCommand st.hist (.deleteConditionCmd newConditions previousConditions)⟩

/-- loadCondition: silent no-op on an out-of-range index, otherwise
apply the stored poses, capturing before/after dynamic poses into a
loadCondition command. -/
def loadCondition (i : ℤ) (st : AppState) : AppState :=
  let conditions := st.scene.savedConditions
  if i < 0 ∨ (conditions.length : ℤ) ≤ i then st
  else
    match conditions[i.toNat]? with
    | none => st
    | some condition =>
      let beforePoses := capturePoses st.scene.assets
      let assets2 := applyPoses condition.poses st.scene.assets
      let afterPoses := capturePoses assets2
      ⟨{ st.scene with assets := assets2 },
       pushCommand st.hist (.loadConditionCmd beforePoses afterPoses)⟩

/-- The exportable assets of the RandomizationPanel: not export-excluded
and not locked. -/
def exportableFilter (assets : List Asset) : List Asset :=
  assets.filter (fun a => !a.excludeFromExport && !a.locked)

/-- The panel's static assets: exportable with gravity disabled. -/
def staticFilter (assets : List Asset) : List Asset :=
  (exportableFilter assets).filter (fun a => a.disableGravity)

/-- The panel's dynamic assets: exportable with gravity enabled. -/
def panelDynamicFilter (assets : List Asset) : List Asset :=
  (exportableFilter assets).filter (fun a => !a.disableGravity)

/-- canRandomize: the upstream guard of the RandomizationPanel requires
at least one dynamic and one static asset to enter Randomize mode. -/
def canRandomize (assets : List Asset) : Bool :=
  !(panelDynamicFilter assets).isEmpty && !(staticFilter assets).isEmpty

/-- The spawn-bounds proxy: a PlaneGeometry(width, height) mesh, rotated
into the ground plane, with a position and scale.  The constant rotation
(-pi/2 about X) is not recorded since recovery never reads it. -/
structure BoundsMesh where
  width : ℚ
  height : ℚ
  position : Vec3
  scale : Vec3
deriving DecidableEq, Repr

/-- createBoundsMesh: a plane sized to the bounds extents, centered at
the bounds midpoint, at unit scale, with the Z-up Y coordinate mapped to
the negated Three.js Z coordinate. -/
def createBoundsMesh (b : SpawnBounds) : BoundsMesh :=
  let sizeX := b.maxX - b.minX
  let sizeY := b.maxY - b.minY
  let centerX := (b.minX + b.maxX) / 2
  let centerY := (b.minY + b.maxY) / 2
  { width := sizeX, height := sizeY, position := ⟨centerX, 0, -centerY⟩, scale := ⟨1, 1, 1⟩ }

/-- updateBoundsFromMesh: recover min/max bounds from the proxy's
position and scaled geometry parameters, inverting the axis mapping. -/
def updateBoundsFromMesh (m : BoundsMesh) : SpawnBounds :=
  let sizeX := m.width * m.scale.x
  let sizeY := m.height * m.scale.z
  { minX := m.position.x - sizeX / 2,
    maxX := m.position.x + sizeX / 2,
    minY := -m.position.z - sizeY / 2,
    maxY := -m.position.z + sizeY / 2 }

/-- The kind of DOM element a keyboard event targets, as far as the
handlers discriminate: an HTMLInputElement, an HTMLTextAreaElement, or
anything else. -/
inductive EventTargetKind where
  | inputEl
  | textareaEl
  | otherEl
deriving DecidableEq, Repr

/-- A keyboard event: its target kind and its key string. -/
structure KeyEvent where
  target : EventTargetKind
  key : String
deriving DecidableEq, Repr

/-- The gizmo manipulation mode. -/
inductive TransformMode where
  | translate
  | rotate
  | scale
deriving DecidableEq, Repr

/-- The observable SelectionManager state the keyboard handler can act
on: the gizmo mode and the current selection. -/
structure SMState where
  mode : TransformMode
  selectedAsset : Option String
deriving DecidableEq, Repr

/-- setMode: change the gizmo mode, selection untouched. -/
def setMode (m : TransformMode) (sm : SMState) : SMState :=
  { sm with mode := m }

/-- select: set or clear the selection (highlight and gizmo attachment
follow the selection and are not modelled separately). -/
def smSelect (a : Option String) (sm : SMState) : SMState :=
  { sm with selectedAsset := a }

/-- event.key.toLowerCase(), computed structurally over the characters
(semantically String.toLower). -/
def lowerKey (s : String) : String := String.mk (s.data.map Char.toLower)

/-- SelectionManager.onKeyDown: early return only when the target is an
HTMLInputElement; otherwise dispatch on the lowercased key: g/r/s set
the mode, escape clears the selection, delete and backspace are left to
the parent component. -/
def onKeyDown (ev : KeyEvent) (sm : SMState) : SMState :=
  if ev.target = .inputEl then sm
  else
    match lowerKey ev.key with
    | "g" => setMode .translate sm
    | "r" => setMode .rotate sm
    | "s" => setMode .scale sm
    | "escape" => smSelect none sm
    | "delete" => sm
    | "backspace" => sm
    | _ => sm

/-- The click-vs-drag guard state recorded by the pointer handlers. -/
structure ClickGuards where
  dragging : Bool
  wasDragging : Bool
  mouseDownPos : Option (ℚ × ℚ)
deriving DecidableEq, Repr

/-- A mouse event's client coordinates. -/
structure MouseEv where
  clientX : ℚ
  clientY : ℚ
deriving DecidableEq, Repr

/-- What a click resolves to. -/
inductive PickOutcome where
  | ignored
  | picked (a : Asset)
  | boundsSel
  | cleared
deriving DecidableEq, Repr

/-- The meshes handed to the raycaster: the mesh children of every
non-locked asset, in order (locked assets are skipped entirely). -/
def gatherMeshes : List Asset → List ℕ
  | [] => []
  | a :: rest => if a.locked then gatherMeshes rest else a.meshes ++ gatherMeshes rest

/-- Resolve a hit mesh back to its owning asset: first non-locked asset
whose sub-hierarchy contains the hit object. -/
def findOwner (hit : ℕ) : List Asset → Option Asset
  | [] => none
  | a :: rest =>
    if a.locked then findOwner hit rest
    else if hit ∈ a.meshes then some a else findOwner hit rest

/-- SelectionManager.onClick: ignore gizmo drags, recorded drags, and
pointer movement beyond the 5-pixel threshold (compared on squared
distance, equivalent to the code's sqrt comparison); then raycast
against the non-locked meshes (the raycast oracle returns the nearest
hit among the given meshes) and resolve the owner, or on a miss return
to the bounds proxy in Randomize mode and clear the selection
otherwise. -/
def onClick (raycast : List ℕ → Option ℕ) (g : ClickGuards) (ev : MouseEv)
    (isRandomizeMode : Bool) (assets : List Asset) : PickOutcome :=
  if g.dragging then .ignored
  else if g.wasDragging then .ignored
  else if (match g.mouseDownPos with
           | some p =>
             decide (25 < (ev.clientX - p.1) * (ev.clientX - p.1) +
               (ev.clientY - p.2) * (ev.clientY - p.2))
           | none => false) then .ignored
  else
    match raycast (gatherMeshes assets) with
    | some hit =>
      match findOwner hit assets with
      | some a => .picked a
      | none => .ignored
    | none => if isRandomizeMode then .boundsSel else .cleared

/-- A trivial instantiation of the Euler-to-quaternion conversion, used
when evaluating on concrete inputs whose rotations never go through the
conversion. -/
def e2qTriv : Vec3 → Quat := fun _ => quatIdentity

/-- A 4x4 spawn rectangle used by the concrete scenarios. -/
def bigBounds : SpawnBounds := ⟨-2, 2, -2, 2⟩

/-- A dynamic unit-cube asset at the origin. -/
def assetA : Asset :=
  { id := "a", name := "crate", locked := false, excludeFromExport := false,
    disableGravity := false, position := ⟨0, 0, 0⟩, quaternion := quatIdentity,
    scale := ⟨1, 1, 1⟩, geomHalf := ⟨1, 1, 1⟩, meshes := [0] }

/-- A static (gravity-disabled) asset. -/
def assetB : Asset :=
  { id := "b", name := "table", locked := false, excludeFromExport := false,
    disableGravity := true, position := ⟨5, 0, 5⟩, quaternion := quatIdentity,
    scale := ⟨1, 1, 1⟩, geomHalf := ⟨1, 1, 1⟩, meshes := [1] }

/-- A locked asset. -/
def assetC : Asset :=
  { id := "c", name := "wall", locked := true, excludeFromExport := false,
    disableGravity := false, position := ⟨0, 0, 0⟩, quaternion := quatIdentity,
    scale := ⟨1, 1, 1⟩, geomHalf := ⟨1, 1, 1⟩, meshes := [2] }

/-- A scene with one dynamic and one static asset and empty history. -/
def appAB : AppState :=
  ⟨⟨[assetA, assetB], bigBounds, "", none, []⟩, ⟨[], []⟩⟩

/-- A scene with a dynamic asset but no static asset. -/
def appDynOnly : AppState :=
  ⟨⟨[assetA], bigBounds, "", none, []⟩, ⟨[], []⟩⟩

/-- A scene with a static asset only. -/
def appStaticOnly : AppState :=
  ⟨⟨[assetB], bigBounds, "", none, []⟩, ⟨[], []⟩⟩

/-- A randomness stream that always samples rx = ry = 0 and the identity
Y rotation (angle 0). -/
def attStream0 : ℕ → Attempt := fun _ => ⟨0, 0, 0, 1⟩

/-- A randomness stream that always samples near the rectangle's corner
with a rational-point rotation on the unit circle (half-angle sine 3/5,
cosine 4/5). -/
def attStreamEdge : ℕ → Attempt := fun _ => ⟨99/100, 99/100, 3/5, 4/5⟩

/-- A 50-entry history. -/
def hist50 : History :=
  ⟨(List.range 50).map (fun i => Cmd.instructionCmd (toString i) (toString (i + 1))), []⟩

/-- 51 legally chained instruction commands. -/
def capCmds : List Cmd :=
  (List.range 51).map (fun i => Cmd.instructionCmd (toString i) (toString (i + 1)))

/-- The scene the 51 instruction commands start from. -/
def scene0 : SceneState := ⟨[], bigBounds, "0", none, []⟩

/-- Three legally constructed commands on appAB's scene. -/
def wCmds : List Cmd :=
  [Cmd.instructionCmd "" "hello",
   Cmd.toggleGravityCmd "b",
   Cmd.spawnBoundsCmd bigBounds ⟨-1, 1, -1, 1⟩]

/-- A raycast oracle returning the nearest listed mesh (the head). -/
def raycastFirst : List ℕ → Option ℕ := fun meshes => meshes.head?

/-- Guard state of a clean click: no drag of any kind recorded. -/
def guardsIdle : ClickGuards := ⟨false, false, none⟩

/-- Claim C7: building the proxy mesh from bounds and recovering bounds
from the unmoved, unit-scale proxy is the identity on SpawnBounds,
component-wise, with the same axis sign convention both ways. -/
theorem bounds_mesh_roundtrip (b : SpawnBounds) :
    updateBoundsFromMesh (createBoundsMesh b) = b := by
  obtain ⟨minX, maxX, minY, maxY⟩ := b
  simp only [createBoundsMesh, updateBoundsFromMesh, SpawnBounds.mk.injEq]
  refine ⟨by ring, by ring, by ring, by ring⟩

/-- Claim C2: pushCommand leaves at most 50 undo entries for every
starting history, and pushing onto a full 50-entry stack evicts exactly
the oldest entry, keeping the 50 most recent in order. -/
theorem push_command_capacity (h : History) (c : Cmd) :
    (pushCommand h c).undoStack.length ≤ MAX_HISTORY_SIZE ∧
    (h.undoStack.length = MAX_HISTORY_SIZE →
      (pushCommand h c).undoStack = h.undoStack.drop 1 ++ [c]) := by
  constructor
  · simp only [pushCommand]
    split
    · rename_i hgt
      simp only [List.length_drop]
      omega
    · rename_i hle
      simp only [not_lt] at hle
      exact hle
  · intro h50
    simp only [pushCommand]
    have hlen : (h.undoStack ++ [c]).length = MAX_HISTORY_SIZE + 1 := by
      simp [h50]
    rw [if_pos (by omega), hlen]
    simp only [MAX_HISTORY_SIZE] at h50 ⊢
    rw [show 50 + 1 - 50 = 1 from rfl]
    rw [List.drop_append_of_le_length (by omega)]

/-- Witness for C2 at a concrete full history. -/
theorem push_command_capacity_witness :
    hist50.undoStack.length = MAX_HISTORY_SIZE ∧
    (pushCommand hist50 (Cmd.instructionCmd "x" "y")).undoStack.length ≤ MAX_HISTORY_SIZE ∧
    (pushCommand hist50 (Cmd.instructionCmd "x" "y")).undoStack =
      hist50.undoStack.drop 1 ++ [Cmd.instructionCmd "x" "y"] :=
  ⟨by decide,
   (push_command_capacity hist50 (Cmd.instructionCmd "x" "y")).1,
   (push_command_capacity hist50 (Cmd.instructionCmd "x" "y")).2 (by decide)⟩

/-- Claim C9: loadCondition and deleteCondition with an out-of-range
index leave the whole application state (saved conditions, asset poses,
both history stacks) unchanged and push no command. -/
theorem load_delete_out_of_range (st : AppState) (i : ℤ)
    (h : i < 0 ∨ (st.scene.savedConditions.length : ℤ) ≤ i) :
    deleteCondition i st = st ∧ loadCondition i st = st := by
  constructor
  · simp only [deleteCondition]
    rw [if_pos h]
  · simp only [loadCondition]
    rw [if_pos h]

/-- Witness for C9 at a concrete state with no saved conditions. -/
theorem load_delete_out_of_range_witness :
    ((3 : ℤ) < 0 ∨ ((appAB.scene.savedConditions.length : ℤ) ≤ 3)) ∧
    deleteCondition 3 appAB = appAB ∧ loadCondition 3 appAB = appAB :=
  ⟨Or.inr (by decide),
   (load_delete_out_of_range appAB 3 (Or.inr (by decide))).1,
   (load_delete_out_of_range appAB 3 (Or.inr (by decide))).2⟩

/-- Claim C10: toggleAssetGravity flips exactly the disableGravity flag
of every registry entry carrying the id (all other fields and entries
untouched), and is the identity on the registry when no entry has the
id. -/
theorem toggle_gravity_frame (st : AppState) (id : String) :
    ((toggleAssetGravity id st).scene.assets =
      st.scene.assets.map (fun a =>
        if a.id = id then { a with disableGravity := !a.disableGravity } else a)) ∧
    (∀ (i : ℕ) (a : Asset), st.scene.assets[i]? = some a →
      (a.id = id → (toggleAssetGravity id st).scene.assets[i]? =
        some { a with disableGravity := !a.disableGravity }) ∧
      (a.id ≠ id → (toggleAssetGravity id st).scene.assets[i]? = some a)) ∧
    ((∀ a ∈ st.scene.assets, a.id ≠ id) →
      (toggleAssetGravity id st).scene.assets = st.scene.assets) := by
  refine ⟨rfl, ?_, ?_⟩
  · intro i a ha
    constructor
    · intro hid
      simp [toggleAssetGravity, doToggleAssetGravity, List.getElem?_map, ha, hid]
    · intro hid
      simp [toggleAssetGravity, doToggleAssetGravity, List.getElem?_map, ha, hid]
  · intro hall
    show doToggleAssetGravity id st.scene.assets = st.scene.assets
    have haux : ∀ l : List Asset, (∀ a ∈ l, a.id ≠ id) → doToggleAssetGravity id l = l := by
      intro l
      induction l with
      | nil => intro _; rfl
      | cons hd tl ih =>
        intro hl
        have hhd : hd.id ≠ id := hl hd (List.mem_cons_self hd tl)
        have htl := ih (fun a ha => hl a (List.mem_cons_of_mem hd ha))
        simp only [doToggleAssetGravity, List.map_cons, if_neg hhd]
        simp only [doToggleAssetGravity] at htl
        rw [htl]
    exact haux st.scene.assets hall

/-- Witness for C10: at a two-asset registry, the matched asset's flag
flips, the other asset is untouched, and a missing id leaves the
registry unchanged. -/
theorem toggle_gravity_frame_witness :
    ((toggleAssetGravity "a" appAB).scene.assets[0]? =
      some { assetA with disableGravity := !assetA.disableGravity }) ∧
    ((toggleAssetGravity "a" appAB).scene.assets[1]? = some assetB) ∧
    ((toggleAssetGravity "zz" appAB).scene.assets = appAB.scene.assets) :=
  ⟨((toggle_gravity_frame appAB "a").2.1 0 assetA (by decide)).1 (by decide),
   ((toggle_gravity_frame appAB "a").2.1 1 assetB (by decide)).2 (by decide),
   (toggle_gravity_frame appAB "zz").2.2 (by decide)⟩

/-- Claim C6, amended: for every key event whose target is a text input
(HTMLInputElement), the selection manager's keyboard handler performs no
action at all. -/
theorem keydown_text_input_noop (ev : KeyEvent) (sm : SMState)
    (h : ev.target = EventTargetKind.inputEl) :
    onKeyDown ev sm = sm := by
  simp [onKeyDown, h]

/-- Witness for the amended C6 at a concrete input-targeted event. -/
theorem keydown_text_input_noop_witness :
    (KeyEvent.mk EventTargetKind.inputEl "r").target = EventTargetKind.inputEl ∧
    onKeyDown ⟨EventTargetKind.inputEl, "r"⟩ ⟨TransformMode.translate, some "a"⟩ =
      ⟨TransformMode.translate, some "a"⟩ :=
  ⟨rfl, keydown_text_input_noop ⟨EventTargetKind.inputEl, "r"⟩
    ⟨TransformMode.translate, some "a"⟩ rfl⟩

/-- Counterexample to C6 as stated: a key event targeting a textarea is
not filtered by the handler — the letter r switches the transform mode
and escape clears the selection. -/
theorem keydown_textarea_counterexample :
    (onKeyDown ⟨EventTargetKind.textareaEl, "r"⟩
      ⟨TransformMode.translate, some "a"⟩).mode = TransformMode.rotate ∧
    TransformMode.rotate ≠ TransformMode.translate ∧
    (onKeyDown ⟨EventTargetKind.textareaEl, "escape"⟩
      ⟨TransformMode.translate, some "a"⟩).selectedAsset = none ∧
    (some "a" : Option String) ≠ none := by
  decide

/-- Owner resolution only ever returns a non-locked listed asset whose
sub-hierarchy contains the hit mesh. -/
theorem findOwner_unlocked : ∀ (l : List Asset) (hit : ℕ) (a : Asset),
    findOwner hit l = some a → a.locked = false ∧ a ∈ l ∧ hit ∈ a.meshes := by
  intro l
  induction l with
  | nil => intro hit a h; cases h
  | cons hd tl ih =>
    intro hit a h
    simp only [findOwner] at h
    by_cases hl : hd.locked = true
    · rw [if_pos hl] at h
      obtain ⟨h1, h2, h3⟩ := ih hit a h
      exact ⟨h1, List.mem_cons_of_mem hd h2, h3⟩
    · rw [if_neg hl] at h
      by_cases hm : hit ∈ hd.meshes
      · rw [if_pos hm] at h
        cases h
        exact ⟨Bool.eq_false_iff.mpr hl, List.mem_cons_self hd tl, hm⟩
      · rw [if_neg hm] at h
        obtain ⟨h1, h2, h3⟩ := ih hit a h
        exact ⟨h1, List.mem_cons_of_mem hd h2, h3⟩

/-- Every mesh handed to the raycaster belongs to some non-locked
asset. -/
theorem gatherMeshes_unlocked : ∀ (l : List Asset) (m : ℕ),
    m ∈ gatherMeshes l → ∃ a, a ∈ l ∧ a.locked = false ∧ m ∈ a.meshes := by
  intro l
  induction l with
  | nil => intro m h; cases h
  | cons hd tl ih =>
    intro m h
    simp only [gatherMeshes] at h
    by_cases hl : hd.locked = true
    · rw [if_pos hl] at h
      obtain ⟨a, h1, h2, h3⟩ := ih m h
      exact ⟨a, List.mem_cons_of_mem hd h1, h2, h3⟩
    · rw [if_neg hl] at h
      rcases List.mem_append.mp h with hmem | hmem
      · exact ⟨hd, List.mem_cons_self hd tl, Bool.eq_false_iff.mpr hl, hmem⟩
      · obtain ⟨a, h1, h2, h3⟩ := ih m hmem
        exact ⟨a, List.mem_cons_of_mem hd h1, h2, h3⟩

/-- Claim C8: a click that resolves to a selection never selects a
locked asset, and locked assets' geometry is excluded from the ray
intersection entirely. -/
theorem pick_never_selects_locked (assets : List Asset) :
    (∀ (raycast : List ℕ → Option ℕ) (g : ClickGuards) (ev : MouseEv)
       (isRandomizeMode : Bool) (a : Asset),
      onClick raycast g ev isRandomizeMode assets = .picked a → a.locked = false) ∧
    (∀ m : ℕ, m ∈ gatherMeshes assets →
      ∃ a, a ∈ assets ∧ a.locked = false ∧ m ∈ a.meshes) := by
  constructor
  · intro raycast g ev isRandomizeMode a h
    simp only [onClick] at h
    split at h
    · cases h
    · split at h
      · cases h
      · split at h
        · cases h
        · split at h
          · rename_i hit hray
            split at h
            · rename_i owner hfind
              cases h
              exact (findOwner_unlocked assets hit _ hfind).1
            · cases h
          · split at h <;> cases h
  · exact gatherMeshes_unlocked assets

/-- Witness for C8: a clean click over a registry whose head is
unlocked resolves to that asset, which is not locked. -/
theorem pick_never_selects_locked_witness :
    onClick raycastFirst guardsIdle ⟨0, 0⟩ false [assetC, assetA] = .picked assetA ∧
    assetA.locked = false :=
  ⟨by decide,
   (pick_never_selects_locked [assetC, assetA]).1 raycastFirst guardsIdle ⟨0, 0⟩ false assetA
     (by decide)⟩

/-- Claim C5, amended: when the registry has no eligible dynamic asset,
invoking randomize is a complete no-op — no pose changes, no savedPoses
update, and no command pushed.  (The static-asset precondition is
enforced only upstream, by refusing to enter Randomize mode.) -/
theorem randomize_no_dynamic_noop (stream : ℕ → Attempt) (st : AppState)
    (h : dynamicFilter st.scene.assets = []) :
    randomizeNonStaticAssets stream st = st := by
  simp only [randomizeNonStaticAssets, capturePoses, h]
  rfl

/-- Witness for the amended C5 at a registry holding only a static
asset. -/
theorem randomize_no_dynamic_noop_witness :
    dynamicFilter appStaticOnly.scene.assets = [] ∧
    randomizeNonStaticAssets attStream0 appStaticOnly = appStaticOnly :=
  ⟨by decide, randomize_no_dynamic_noop attStream0 appStaticOnly (by decide)⟩

/-- Counterexample to C5 as stated: with eligible dynamic assets but no
eligible static asset (so the upstream canRandomize guard is false),
invoking randomize still moves the dynamic asset and pushes a command. -/
theorem randomize_missing_static_counterexample :
    staticFilter appDynOnly.scene.assets = [] ∧
    dynamicFilter appDynOnly.scene.assets ≠ [] ∧
    canRandomize appDynOnly.scene.assets = false ∧
    (randomizeNonStaticAssets attStream0 appDynOnly).hist.undoStack.length = 1 ∧
    ((randomizeNonStaticAssets attStream0 appDynOnly).scene.assets[0]?.map
      (fun a => a.position)) ≠ some assetA.position := by
  decide

/-- The placement pass leaves every non-dynamic registry entry exactly
in place (same index, same asset). -/
theorem placeAll_preserves_nondynamic (b : SpawnBounds) (stream : ℕ → Attempt)
    (poses : List (String × SavedPose)) :
    ∀ (l : List Asset) (boxes : List Box3) (k i : ℕ) (a : Asset),
      l[i]? = some a → isDynamic a = false →
      (placeAll b stream poses l boxes k)[i]? = some a := by
  intro l
  induction l with
  | nil => intro boxes k i a h _; simp at h
  | cons hd tl ih =>
    intro boxes k i a h hdyn
    cases i with
    | zero =>
      simp only [List.getElem?_cons_zero, Option.some.injEq] at h
      subst h
      simp only [placeAll, hdyn, Bool.false_eq_true, if_false, List.getElem?_cons_zero]
    | succ n =>
      simp only [List.getElem?_cons_succ] at h
      simp only [placeAll]
      by_cases hd2 : isDynamic hd = true
      · rw [if_pos hd2]
        simp only [List.getElem?_cons_succ]
        exact ih _ _ n a h hdyn
      · rw [if_neg hd2]
        simp only [List.getElem?_cons_succ]
        exact ih _ _ n a h hdyn

/-- Claim C4: a randomize invocation never changes a static asset (not
locked, not export-excluded, gravity disabled): its registry entry —
pose included — is identical afterwards. -/
theorem randomize_preserves_static (stream : ℕ → Attempt) (st : AppState)
    (i : ℕ) (a : Asset) (hget : st.scene.assets[i]? = some a)
    (_hlock : a.locked = false) (_hexcl : a.excludeFromExport = false)
    (hgrav : a.disableGravity = true) :
    (randomizeNonStaticAssets stream st).scene.assets[i]? = some a := by
  have hdyn : isDynamic a = false := by
    simp [isDynamic, hgrav]
  simp only [randomizeNonStaticAssets]
  by_cases hemp : (capturePoses st.scene.assets).isEmpty
  · rw [if_pos hemp]
    exact hget
  · rw [if_neg hemp]
    simp only [doRandomizeNonStaticAssets]
    by_cases hdf : (dynamicFilter st.scene.assets).isEmpty
    · rw [if_pos hdf]
      exact hget
    · rw [if_neg hdf]
      exact placeAll_preserves_nondynamic st.scene.spawnBounds stream
        (capturePoses st.scene.assets) st.scene.assets [] 0 i a hget hdyn

/-- Witness for C4: the static asset of a mixed registry is untouched by
a concrete randomize invocation. -/
theorem randomize_preserves_static_witness :
    appAB.scene.assets[1]? = some assetB ∧
    (randomizeNonStaticAssets attStream0 appAB).scene.assets[1]? = some assetB :=
  ⟨by decide,
   randomize_preserves_static attStream0 appAB 1 assetB (by decide) (by decide)
     (by decide) (by decide)⟩

/-- In the canFit case, any accepted candidate passed the containment
check, so the asset the loop returns as placed lies within the spawn
rectangle. -/
theorem tryPlace_canfit_within (b : SpawnBounds) (stream : ℕ → Attempt)
    (vMinX vMaxX vMinY vMaxY oh : ℚ) (sp : Option SavedPose) :
    ∀ (fuel k : ℕ) (a : Asset) (boxes : List Box3),
      (tryPlace b stream true vMinX vMaxX vMinY vMaxY oh sp fuel k a boxes).placed = true →
      isBoxWithinSpawnBounds b
        (assetWorldBox
          (tryPlace b stream true vMinX vMaxX vMinY vMaxY oh sp fuel k a boxes).asset) =
        true := by
  intro fuel
  induction fuel with
  | zero =>
    intro k a boxes h
    simp [tryPlace] at h
  | succ n ih =>
    intro k a boxes h
    simp only [tryPlace] at h ⊢
    split at h
    · rename_i hcond
      split
      · simp only [Bool.not_true, Bool.false_and, Bool.or_false, Bool.and_eq_true] at hcond
        exact hcond.2
      · rename_i hcond2
        exact absurd hcond hcond2
    · rename_i hcond
      split
      · rename_i hcond2
        exact absurd hcond2 hcond
      · exact ih _ _ _ h

/-- Claim C3, amended: after a randomize invocation, a dynamic asset
whose footprint fits (canFit = true) lies within the spawn rectangle
whenever its attempt loop accepted a candidate (placed = true); an asset
whose 100 attempts were all rejected keeps the last attempted pose,
which may lie outside the rectangle. -/
theorem placement_canfit_within (b : SpawnBounds) (stream : ℕ → Attempt)
    (poses : List (String × SavedPose)) (k : ℕ) (a : Asset) (boxes : List Box3)
    (hfit : canFitFor b a (lookupPose a.id poses) = true)
    (hplaced : (placeAssetFull b stream poses k a boxes).placed = true) :
    isBoxWithinSpawnBounds b
      (assetWorldBox (placeAssetFull b stream poses k a boxes).asset) = true := by
  simp only [placeAssetFull] at hplaced ⊢
  rw [hfit] at hplaced ⊢
  exact tryPlace_canfit_within b stream _ _ _ _ _ _ maxAttempts k a boxes hplaced

/-- Witness for the amended C3: a concrete accepted placement with
canFit = true ends within the rectangle. -/
theorem placement_canfit_within_witness :
    canFitFor bigBounds assetA (lookupPose assetA.id (capturePoses [assetA, assetB])) =
      true ∧
    (placeAssetFull bigBounds attStream0 (capturePoses [assetA, assetB]) 0 assetA
      []).placed = true ∧
    isBoxWithinSpawnBounds bigBounds
      (assetWorldBox
        (placeAssetFull bigBounds attStream0 (capturePoses [assetA, assetB]) 0 assetA
          []).asset) = true :=
  ⟨by decide, by decide,
   placement_canfit_within bigBounds attStream0 (capturePoses [assetA, assetB]) 0 assetA
     [] (by decide) (by decide)⟩

set_option maxRecDepth 100000 in
/-- Counterexample to C3 as stated: with valid randomness that always
samples near a corner and a rotation given by the unit-circle point
(3/5, 4/5), the rotated footprint exceeds the shrink margin, every
attempt fails the containment check, and the invocation keeps a final
pose whose world box lies outside the spawn rectangle even though
canFit = true. -/
theorem randomize_within_bounds_counterexample :
    validAttempt ⟨99/100, 99/100, 3/5, 4/5⟩ ∧
    canFitFor bigBounds assetA (lookupPose assetA.id (capturePoses appAB.scene.assets)) =
      true ∧
    ((randomizeNonStaticAssets attStreamEdge appAB).scene.assets[0]?.map
      (fun a => isBoxWithinSpawnBounds bigBounds (assetWorldBox a))) = some false := by
  refine ⟨by norm_num [validAttempt], by decide, by decide⟩


/-- Executing a concatenation executes the two parts in order. -/
theorem execList_append (e2q : Vec3 → Quat) :
    ∀ (xs ys : List Cmd) (s : SceneState),
      execList e2q s (xs ++ ys) = execList e2q (execList e2q s xs) ys := by
  intro xs
  induction xs with
  | nil => intro ys s; rfl
  | cons c xs ih => intro ys s; simp only [List.cons_append, execList]; exact ih ys _

/-- The construction invariant splits along a concatenation. -/
theorem invertsFromB_append (e2q : Vec3 → Quat) :
    ∀ (xs ys : List Cmd) (s : SceneState),
      invertsFromB e2q s (xs ++ ys) =
        (invertsFromB e2q s xs && invertsFromB e2q (execList e2q s xs) ys) := by
  intro xs
  induction xs with
  | nil => intro ys s; simp [invertsFromB, execList]
  | cons c xs ih =>
    intro ys s
    rw [List.cons_append]
    rw [show invertsFromB e2q s (c :: (xs ++ ys)) =
          (invertsAtB e2q s c && invertsFromB e2q (Cmd.exec e2q c s) (xs ++ ys)) from rfl]
    rw [show invertsFromB e2q s (c :: xs) =
          (invertsAtB e2q s c && invertsFromB e2q (Cmd.exec e2q c s) xs) from rfl]
    rw [show execList e2q s (c :: xs) = execList e2q (Cmd.exec e2q c s) xs from rfl]
    rw [ih, Bool.and_assoc]

/-- One undo on a history whose undo stack ends in c: pop c, run its
undo action, move it to the redo stack. -/
theorem undoStep_concat (e2q : Vec3 → Quat) (sc : SceneState) (u r : List Cmd) (c : Cmd) :
    undoStep e2q ⟨sc, ⟨u ++ [c], r⟩⟩ = ⟨c.und e2q sc, ⟨u, r ++ [c]⟩⟩ := by
  simp [undoStep, List.getLast?_concat, List.dropLast_concat]

/-- One redo on a history whose redo stack ends in c: pop c, run its
execute action, move it to the undo stack. -/
theorem redoStep_concat (e2q : Vec3 → Quat) (sc : SceneState) (u r : List Cmd) (c : Cmd) :
    redoStep e2q ⟨sc, ⟨u, r ++ [c]⟩⟩ = ⟨c.exec e2q sc, ⟨u ++ [c], r⟩⟩ := by
  simp [redoStep, List.getLast?_concat, List.dropLast_concat]

/-- Running at most 50 commands from a history whose redo stack is empty
appends them to the undo stack with no trimming and no leftover redo
entries. -/
theorem runCmds_no_trim (e2q : Vec3 → Quat) :
    ∀ (cs : List Cmd) (s : SceneState) (u : List Cmd),
      u.length + cs.length ≤ MAX_HISTORY_SIZE →
      runCmds e2q ⟨s, ⟨u, []⟩⟩ cs = ⟨execList e2q s cs, ⟨u ++ cs, []⟩⟩ := by
  intro cs
  induction cs with
  | nil => intro s u _; simp [runCmds, execList]
  | cons c cs ih =>
    intro s u hlen
    simp only [List.length_cons] at hlen
    simp only [runCmds, execList]
    have hpush : pushCommand ⟨u, []⟩ c = ⟨u ++ [c], []⟩ := by
      simp only [pushCommand]
      rw [if_neg]
      simp only [List.length_append, List.length_cons, List.length_nil, not_lt]
      omega
    rw [hpush, ih (Cmd.exec e2q c s) (u ++ [c]) (by simp; omega)]
    simp

/-- Undoing as many times as there are commands unwinds a legally
constructed suffix of the undo stack, restoring the starting scene and
transferring the commands onto the redo stack in reverse. -/
theorem undo_phase (e2q : Vec3 → Quat) :
    ∀ (cs : List Cmd) (s : SceneState) (u r : List Cmd),
      invertsFromB e2q s cs = true →
      undoStepN e2q cs.length ⟨execList e2q s cs, ⟨u ++ cs, r⟩⟩ =
        ⟨s, ⟨u, r ++ cs.reverse⟩⟩ := by
  intro cs
  induction cs using List.reverseRecOn with
  | nil => intro s u r _; simp [undoStepN, execList]
  | append_singleton xs c ih =>
    intro s u r hinv
    rw [invertsFromB_append] at hinv
    simp only [Bool.and_eq_true] at hinv
    obtain ⟨hxs, hc⟩ := hinv
    simp only [invertsFromB, invertsAtB, Bool.and_true, decide_eq_true_eq] at hc
    have hexec : execList e2q s (xs ++ [c]) = Cmd.exec e2q c (execList e2q s xs) := by
      rw [execList_append]
      rfl
    have hlen : (xs ++ [c]).length = xs.length + 1 := by simp
    rw [hlen]
    simp only [undoStepN]
    rw [show u ++ (xs ++ [c]) = (u ++ xs) ++ [c] from (List.append_assoc u xs [c]).symm]
    rw [undoStep_concat, hexec, hc]
    rw [ih s u (r ++ [c]) hxs]
    simp [List.reverse_append]

/-- Redoing as many times as there are commands replays them in order,
moving them back onto the undo stack. -/
theorem redo_phase (e2q : Vec3 → Quat) :
    ∀ (cs : List Cmd) (s : SceneState) (u r : List Cmd),
      redoStepN e2q cs.length ⟨s, ⟨u, r ++ cs.reverse⟩⟩ =
        ⟨execList e2q s cs, ⟨u ++ cs, r⟩⟩ := by
  intro cs
  induction cs with
  | nil => intro s u r; simp [redoStepN, execList]
  | cons c cs ih =>
    intro s u r
    simp only [List.length_cons, redoStepN]
    rw [show r ++ (c :: cs).reverse = (r ++ cs.reverse) ++ [c] by simp]
    rw [redoStep_concat]
    rw [ih (Cmd.exec e2q c s) (u ++ [c]) r]
    simp [execList]

/-- Claim C1, amended: for every legally constructed sequence of at most
50 commands, each executed by its caller and pushed, undoing N times
restores every observed mutable piece of state (registry contents,
spawn bounds, instruction text, saved conditions) to its pre-sequence
value, and redoing N times then restores the post-sequence scene.  (The
bound is forced by the capacity-50 eviction: a 51st command evicts the
oldest undo entry, see the counterexample.) -/
theorem undo_redo_roundtrip (e2q : Vec3 → Quat) (s0 : SceneState) (cs : List Cmd)
    (hinv : invertsFromB e2q s0 cs = true) (hlen : cs.length ≤ MAX_HISTORY_SIZE) :
    ((undoStepN e2q cs.length (runCmds e2q ⟨s0, ⟨[], []⟩⟩ cs)).scene.assets = s0.assets ∧
     (undoStepN e2q cs.length (runCmds e2q ⟨s0, ⟨[], []⟩⟩ cs)).scene.spawnBounds =
       s0.spawnBounds ∧
     (undoStepN e2q cs.length (runCmds e2q ⟨s0, ⟨[], []⟩⟩ cs)).scene.instruction =
       s0.instruction ∧
     (undoStepN e2q cs.length (runCmds e2q ⟨s0, ⟨[], []⟩⟩ cs)).scene.savedConditions =
       s0.savedConditions) ∧
    (redoStepN e2q cs.length
       (undoStepN e2q cs.length (runCmds e2q ⟨s0, ⟨[], []⟩⟩ cs))).scene =
      (runCmds e2q ⟨s0, ⟨[], []⟩⟩ cs).scene := by
  have hrun : runCmds e2q ⟨s0, ⟨[], []⟩⟩ cs = ⟨execList e2q s0 cs, ⟨cs, []⟩⟩ := by
    have := runCmds_no_trim e2q cs s0 [] (by simpa using hlen)
    simpa using this
  have hundo : undoStepN e2q cs.length ⟨execList e2q s0 cs, ⟨cs, []⟩⟩ =
      ⟨s0, ⟨[], cs.reverse⟩⟩ := by
    have := undo_phase e2q cs s0 [] [] hinv
    simpa using this
  have hredo : redoStepN e2q cs.length ⟨s0, ⟨[], cs.reverse⟩⟩ =
      ⟨execList e2q s0 cs, ⟨cs, []⟩⟩ := by
    have := redo_phase e2q cs s0 [] []
    simpa using this
  rw [hrun, hundo, hredo]
  exact ⟨⟨rfl, rfl, rfl, rfl⟩, rfl⟩

/-- Witness for the amended C1: a concrete three-command session
(instruction edit, gravity toggle, spawn-bounds edit) undone and redone
in full. -/
theorem undo_redo_roundtrip_witness :
    invertsFromB e2qTriv appAB.scene wCmds = true ∧
    wCmds.length ≤ MAX_HISTORY_SIZE ∧
    (((undoStepN e2qTriv wCmds.length
        (runCmds e2qTriv ⟨appAB.scene, ⟨[], []⟩⟩ wCmds)).scene.assets =
          appAB.scene.assets ∧
      (undoStepN e2qTriv wCmds.length
        (runCmds e2qTriv ⟨appAB.scene, ⟨[], []⟩⟩ wCmds)).scene.spawnBounds =
          appAB.scene.spawnBounds ∧
      (undoStepN e2qTriv wCmds.length
        (runCmds e2qTriv ⟨appAB.scene, ⟨[], []⟩⟩ wCmds)).scene.instruction =
          appAB.scene.instruction ∧
      (undoStepN e2qTriv wCmds.length
        (runCmds e2qTriv ⟨appAB.scene, ⟨[], []⟩⟩ wCmds)).scene.savedConditions =
          appAB.scene.savedConditions) ∧
     (redoStepN e2qTriv wCmds.length
        (undoStepN e2qTriv wCmds.length
          (runCmds e2qTriv ⟨appAB.scene, ⟨[], []⟩⟩ wCmds))).scene =
       (runCmds e2qTriv ⟨appAB.scene, ⟨[], []⟩⟩ wCmds).scene) :=
  ⟨by decide, by decide,
   undo_redo_roundtrip e2qTriv appAB.scene wCmds (by decide) (by decide)⟩

set_option maxRecDepth 40000 in
/-- Counterexample to C1 as stated: 51 legally constructed and chained
instruction commands; the capacity-50 undo stack evicts the first one,
so 51 undos leave the instruction at the value after the first command,
not the pre-sequence value. -/
theorem undo_cap_counterexample :
    invertsFromB e2qTriv scene0 capCmds = true ∧
    capCmds.length = 51 ∧
    (undoStepN e2qTriv capCmds.length
      (runCmds e2qTriv ⟨scene0, ⟨[], []⟩⟩ capCmds)).scene.instruction ≠
      scene0.instruction := by
  refine ⟨by decide, by decide, by decide⟩
